import Mathlib

/-!
# Verification of the movie-picker client engine and ingestion utility

Shallow embedding of the repository's dual-catalog client engine
(`src/db.ts`, final variant: `toggleContentSelection`, `reset`,
`fetchContent`, `populateGenres`, `filterContent`, `sortResults`,
`updateSelectedBox` / `copyListText`, `initializeDatabase` / `seedDatabase`)
and of the offline NFO-ingestion utility (`sanitizeTitle`,
`replaceImageUrl`, `downloadImage`, `logFailedDownload`, `processNfoFiles`).

Conventions of the embedding:
* The Dexie `selected` table (`"++id, refId, title, year"`) is a list of
  rows in primary-key order (auto-increment insertion order) together with
  the next key value; `add` appends, `where("refId").equals(x).delete()`
  removes every row whose `refId` equals `x`, `clear()` empties the table
  without resetting the key generator.
* JavaScript `Array.prototype.sort(comparator)` (stable since ES2019; a
  comparator result of NaN is treated as `+0` by `SortCompare`) is modelled
  as a stable insertion sort over the boolean relation
  `le a b := comparator a b ≤ 0`.
* `String.prototype.localeCompare` is modelled as comparison in the
  lexicographic order on `String`: a fixed total order standing in for the
  default-locale collation order.
* JavaScript numbers that the code only compares and prints
  (`year`, `runtime`) are `Int`; `rating` and fuzzy-match scores are `ℚ`.
-/

/-- The `Movie` record of `src/db.ts` (the `TvShow` interface there is
field-for-field identical, see `TvShow` below). -/
structure Movie where
  id : String
  title : String
  year : Int
  description : String
  image : Option String
  runtime : Int
  premiered : String
  genre : List String
  tag : Option (List String)
  rating : ℚ
  actors : List String
  deriving Repr, DecidableEq

/-- The `TvShow` interface of `src/db.ts` is structurally identical to
`Movie`; the embedding shares the representation. -/
abbrev TvShow := Movie

/-- A row of the persisted `selected` table (`Selected` interface of
`src/db.ts`): store-assigned surrogate key `id`, foreign reference `refId`,
and the denormalized `title`/`year` snapshot. -/
structure Selected where
  id : Nat
  refId : String
  title : String
  year : Int
  deriving Repr, DecidableEq

/-- State of the Dexie `selected` table (`"++id, refId, title, year"`):
rows in primary-key order plus the auto-increment key generator. -/
structure SelStore where
  nextId : Nat
  rows : List Selected
  deriving Repr, DecidableEq

/-- A freshly created (or fully upgraded) `selected` table. -/
def emptySelStore : SelStore := { nextId := 1, rows := [] }

/-- Operation `toggleContentSelection` (src/db.ts:1042-1057): read the selected rows,
test membership of `contentId` among their `refId`s; if present, delete
every row whose `refId` equals `contentId`; otherwise `add` a new row
(auto-increment key, appended in insertion order). -/
def toggleContentSelection (st : SelStore) (contentId contentTitle : String)
    (contentYear : Int) : SelStore :=
  if st.rows.any (fun s => s.refId == contentId) then
    { st with rows := st.rows.filter (fun s => !(s.refId == contentId)) }
  else
    { nextId := st.nextId + 1,
      rows := st.rows ++ [⟨st.nextId, contentId, contentTitle, contentYear⟩] }

/-- The `db.selected.clear()` call performed by `reset`
(src/db.ts:935-949): removes every row; the key generator is not reset. -/
def resetSelections (st : SelStore) : SelStore :=
  { st with rows := [] }

/-- Membership test used throughout the source
(`selectedContent.some((s) => s.refId === contentId)`). -/
def isSelected (st : SelStore) (refId : String) : Bool :=
  st.rows.any (fun s => s.refId == refId)

/-- Selection-store states reachable from the empty store by the two
mutating operations of the app: `toggleContentSelection` and the
`db.selected.clear()` of `reset`. -/
inductive ReachableSel : SelStore → Prop
  | empty : ReachableSel emptySelStore
  | toggle (st : SelStore) (r t : String) (y : Int) :
      ReachableSel st → ReachableSel (toggleContentSelection st r t y)
  | clear (st : SelStore) : ReachableSel st → ReachableSel (resetSelections st)

/-- Number of rows of the store holding a given `refId`. -/
def refIdCount (st : SelStore) (refId : String) : Nat :=
  st.rows.countP (fun s => s.refId == refId)

-- Helper lemmas about the toggle operation.

theorem any_filter_not_refId (rows : List Selected) (r : String) :
    (rows.filter (fun s => !(s.refId == r))).any (fun s => s.refId == r) = false := by
  rw [List.any_eq_false]
  intro s hs
  rcases List.mem_filter.mp hs with ⟨_, hneg⟩
  simpa using hneg

theorem countP_refId_append (rows extra : List Selected) (r : String) :
    (rows ++ extra).countP (fun s => s.refId == r) =
      rows.countP (fun s => s.refId == r) + extra.countP (fun s => s.refId == r) :=
  List.countP_append _ _ _

/-- C1: two consecutive toggles of the same `refId`, with no intervening
operation, restore the original membership state of that `refId`: selected
stays selected, unselected stays unselected. -/
theorem toggle_toggle_membership (st : SelStore) (refId title : String) (year : Int) :
    isSelected (toggleContentSelection
        (toggleContentSelection st refId title year) refId title year) refId =
      isSelected st refId := by
  by_cases h : st.rows.any (fun s => s.refId == refId) = true
  · -- Selected: the first toggle deletes every row with this refId,
    -- the second inserts one back.
    unfold toggleContentSelection
    rw [if_pos h]
    have hfilter := any_filter_not_refId st.rows refId
    rw [if_neg (by simp [hfilter])]
    unfold isSelected
    rw [List.any_append, hfilter, h]
    simp
  · -- Unselected: the first toggle inserts one row, the second deletes it.
    have h' : st.rows.any (fun s => s.refId == refId) = false := by
      simpa using h
    unfold toggleContentSelection
    rw [if_neg h]
    have hmem : ((st.rows ++ [(⟨st.nextId, refId, title, year⟩ : Selected)]).any
        (fun s => s.refId == refId)) = true := by
      rw [List.any_append]
      simp
    rw [if_pos hmem]
    unfold isSelected
    rw [any_filter_not_refId, h']

/-- C2: every selection-store state reachable from the empty store by
toggle and clear operations holds at most one row per distinct `refId`. -/
theorem reachable_refIdCount_le_one (st : SelStore) (h : ReachableSel st)
    (refId : String) : refIdCount st refId ≤ 1 := by
  induction h with
  | empty => simp [refIdCount, emptySelStore]
  | toggle st r t y _ ih =>
    unfold toggleContentSelection
    by_cases hsel : st.rows.any (fun s => s.refId == r) = true
    · rw [if_pos hsel]
      unfold refIdCount at ih ⊢
      calc (st.rows.filter (fun s => !(s.refId == r))).countP
              (fun s => s.refId == refId)
          ≤ st.rows.countP (fun s => s.refId == refId) :=
            (List.filter_sublist _).countP_le _
        _ ≤ 1 := ih
    · rw [if_neg hsel]
      unfold refIdCount at ih ⊢
      rw [countP_refId_append]
      by_cases heq : r = refId
      · subst heq
        have hall : ∀ x ∈ st.rows, ¬x.refId = r := by simpa using hsel
        have hzero : st.rows.countP (fun s => s.refId == r) = 0 := by
          rw [List.countP_eq_zero]
          intro s hs
          simpa using hall s hs
        simp [hzero, List.countP_cons]
      · have hzero : ([(⟨st.nextId, r, t, y⟩ : Selected)]).countP
            (fun s => s.refId == refId) = 0 := by
          simp [List.countP_cons, heq]
        rw [hzero]
        simpa using ih
  | clear st _ ih => simp [refIdCount, resetSelections]

/-- Closed witness for `reachable_refIdCount_le_one`: the store obtained by
one toggle from the empty store satisfies the bound for that `refId`. -/
theorem reachable_refIdCount_le_one_witness :
    refIdCount (toggleContentSelection emptySelStore "tt0087332" "Ghostbusters" 1984)
      "tt0087332" ≤ 1 :=
  reachable_refIdCount_le_one _
    (ReachableSel.toggle emptySelStore "tt0087332" "Ghostbusters" 1984
      ReachableSel.empty) "tt0087332"

/-! ## Clipboard export (`updateSelectedBox` and `copyListText`) -/

/-- The text of one `<li>` item rendered by `updateSelectedBox`
(src/db.ts:1059-1084): the template string of each list item is
the row's title, a space, and the year in parentheses. -/
def selectionLine (s : Selected) : String :=
  s.title ++ " (" ++ toString s.year ++ ")"

/-- Operation `copyListText` (src/db.ts:951-970): read the text content of every
`<li>` in the selected box (rendered by `updateSelectedBox` from the
selection rows in table order) and join them with a newline. -/
def copyListText (rows : List Selected) : String :=
  String.intercalate "\n" (rows.map selectionLine)

/-- C6: the copy-to-clipboard export serializes the selection list as
newline-joined title-and-year lines in insertion order; with Dune (2021)
then Arrival (2016) toggled in from the empty store in that order, the
exported text is the Dune line, a newline, and the Arrival line. -/
theorem copyListText_insertion_order :
    copyListText (toggleContentSelection
        (toggleContentSelection emptySelStore "tt1160419" "Dune" 2021)
        "tt2543164" "Arrival" 2016).rows = "Dune (2021)\nArrival (2016)" := by
  decide

/-! ## JavaScript array sort

`Array.prototype.sort(comparator)` with a consistent comparator is a stable
sort with respect to `le a b := comparator a b ≤ 0` (and `SortCompare`
treats a NaN comparator result as `+0`, i.e. as a tie).  A stable sort of a
list under a total preorder is uniquely determined, so the embedding uses a
stable insertion sort over the boolean relation `le`. -/

/-- Stable insertion of `x` into `l`: `x` goes immediately before the first
element `y` with `le x y`. -/
def jsInsertBy (le : α → α → Bool) (x : α) : List α → List α
  | [] => [x]
  | y :: ys => if le x y then x :: y :: ys else y :: jsInsertBy le x ys

/-- Stable insertion sort modelling `Array.prototype.sort(comparator)`,
with `le a b` standing for `comparator(a, b) <= 0`. -/
def jsSortBy (le : α → α → Bool) : List α → List α
  | [] => []
  | x :: xs => jsInsertBy le x (jsSortBy le xs)

theorem mem_jsInsertBy (le : α → α → Bool) (x a : α) (l : List α) :
    a ∈ jsInsertBy le x l ↔ a = x ∨ a ∈ l := by
  induction l with
  | nil => simp [jsInsertBy]
  | cons y ys ih =>
    unfold jsInsertBy
    by_cases h : le x y = true
    · rw [if_pos h]
      simp [or_comm, or_assoc, or_left_comm]
    · rw [if_neg h]
      simp [ih, or_comm, or_assoc, or_left_comm]

theorem perm_jsInsertBy (le : α → α → Bool) (x : α) (l : List α) :
    (jsInsertBy le x l).Perm (x :: l) := by
  induction l with
  | nil => simp [jsInsertBy]
  | cons y ys ih =>
    unfold jsInsertBy
    by_cases h : le x y = true
    · rw [if_pos h]
    · rw [if_neg h]
      exact (ih.cons y).trans (List.Perm.swap x y ys)

theorem perm_jsSortBy (le : α → α → Bool) (l : List α) :
    (jsSortBy le l).Perm l := by
  induction l with
  | nil => simp [jsSortBy]
  | cons x xs ih =>
    unfold jsSortBy
    exact (perm_jsInsertBy le x (jsSortBy le xs)).trans (ih.cons x)

theorem mem_jsSortBy (le : α → α → Bool) (a : α) (l : List α) :
    a ∈ jsSortBy le l ↔ a ∈ l :=
  (perm_jsSortBy le l).mem_iff

/-- Insertion into a sorted list stays sorted, assuming totality between
`x` and the list members and transitivity of `le` from `x` through them. -/
theorem pairwise_jsInsertBy (le : α → α → Bool) (x : α) (l : List α)
    (hl : l.Pairwise fun a b => le a b = true)
    (htot : ∀ b ∈ l, le x b = true ∨ le b x = true)
    (htr : ∀ b ∈ l, ∀ c ∈ l, le x b = true → le b c = true → le x c = true) :
    (jsInsertBy le x l).Pairwise fun a b => le a b = true := by
  induction l with
  | nil => simp [jsInsertBy]
  | cons y ys ih =>
    rw [List.pairwise_cons] at hl
    obtain ⟨hy, hys⟩ := hl
    unfold jsInsertBy
    by_cases h : le x y = true
    · rw [if_pos h]
      rw [List.pairwise_cons]
      refine ⟨?_, List.pairwise_cons.mpr ⟨hy, hys⟩⟩
      intro b hb
      rcases List.mem_cons.mp hb with rfl | hb'
      · exact h
      · exact htr y (List.mem_cons_self _ _) b (List.mem_cons_of_mem _ hb') h (hy b hb')
    · rw [if_neg h]
      rw [List.pairwise_cons]
      constructor
      · intro b hb
        rcases (mem_jsInsertBy le x b ys).mp hb with rfl | hb'
        · rcases htot y (List.mem_cons_self _ _) with hxy | hyx
          · exact absurd hxy h
          · exact hyx
        · exact hy b hb'
      · exact ih hys
          (fun b hb => htot b (List.mem_cons_of_mem _ hb))
          (fun b hb c hc => htr b (List.mem_cons_of_mem _ hb) c (List.mem_cons_of_mem _ hc))

/-- The JS sort output is sorted, assuming `le` is total and transitive on
the members of the input list. -/
theorem pairwise_jsSortBy (le : α → α → Bool) (l : List α)
    (htot : ∀ a ∈ l, ∀ b ∈ l, le a b = true ∨ le b a = true)
    (htr : ∀ a ∈ l, ∀ b ∈ l, ∀ c ∈ l, le a b = true → le b c = true → le a c = true) :
    (jsSortBy le l).Pairwise fun a b => le a b = true := by
  induction l with
  | nil => simp [jsSortBy]
  | cons x xs ih =>
    unfold jsSortBy
    have hx : x ∈ x :: xs := List.mem_cons_self _ _
    have hsub : ∀ a, a ∈ jsSortBy le xs → a ∈ x :: xs := fun a ha =>
      List.mem_cons_of_mem _ ((mem_jsSortBy le a xs).mp ha)
    refine pairwise_jsInsertBy le x (jsSortBy le xs) ?_ ?_ ?_
    · exact ih
        (fun a ha b hb => htot a (List.mem_cons_of_mem _ ha) b (List.mem_cons_of_mem _ hb))
        (fun a ha b hb c hc => htr a (List.mem_cons_of_mem _ ha)
          b (List.mem_cons_of_mem _ hb) c (List.mem_cons_of_mem _ hc))
    · exact fun b hb => htot x hx b (hsub b hb)
    · exact fun b hb c hc => htr x hx b (hsub b hb) c (hsub c hc)

/-- A comparator that always ties (returns `0`) leaves the list unchanged
(JS `sort` is stable, so all-ties is the identity). -/
theorem jsSortBy_of_all_true (le : α → α → Bool) (h : ∀ a b, le a b = true)
    (l : List α) : jsSortBy le l = l := by
  induction l with
  | nil => rfl
  | cons x xs ih =>
    unfold jsSortBy
    rw [ih]
    cases xs with
    | nil => rfl
    | cons y ys => unfold jsInsertBy; rw [if_pos (h x y)]

/-! ## The filter/sort pipeline (`filterContent` and `sortResults`) -/

/-- Model of `String.prototype.localeCompare`: comparison in the
lexicographic order on `String`, a fixed total order standing in for the
default-locale collation order (negative when `a` precedes `b`, zero on
equal, positive otherwise). -/
def localeCompare (a b : String) : Int :=
  if a < b then -1 else if b < a then 1 else 0

theorem localeCompare_nonpos_iff (a b : String) :
    localeCompare a b ≤ 0 ↔ a ≤ b := by
  unfold localeCompare
  by_cases hab : a < b
  · rw [if_pos hab]
    simp [le_of_lt hab]
  · rw [if_neg hab]
    by_cases hba : b < a
    · rw [if_pos hba]
      simp [not_le.mpr hba]
    · rw [if_neg hba]
      simp [le_of_not_lt hba]

/-- The `FuseResult` record as consumed by the pipeline: the matched item, the
`refIndex`, and the relevance `score` (lower is better).  The score is
`none` on the non-search branch of `filterContent`, which builds bare
`(item, refIndex)` wrappers. -/
structure FuseResult where
  item : Movie
  refIndex : Nat
  score : Option ℚ
  deriving Repr, DecidableEq

/-- Sign of the `sortResults` comparator (src/db.ts:1112-1127), as the
boolean relation `comparator(a, b) <= 0`.  The `"search"` case compares
`a.score! - b.score!`; when a score is absent the JS subtraction is NaN,
which `SortCompare` treats as `+0`, i.e. a tie (`true` both ways). -/
def sortComparatorLe (sortOption : String) (a b : FuseResult) : Bool :=
  if sortOption = "search" then
    match a.score, b.score with
    | some x, some y => decide (x ≤ y)
    | _, _ => true
  else if sortOption = "title" then
    decide (localeCompare a.item.title b.item.title ≤ 0)
  else if sortOption = "year" then
    decide (b.item.year ≤ a.item.year)
  else if sortOption = "rating" then
    decide (b.item.rating ≤ a.item.rating)
  else true

/-- Operation `sortResults` (src/db.ts:1112-1127): `results.sort(comparator)` with
the switch on `sortOption` inside the comparator. -/
def sortResults (results : List FuseResult) (sortOption : String) : List FuseResult :=
  jsSortBy (sortComparatorLe sortOption) results

/-- Model of `String.prototype.toLowerCase` applied to the raw search
input: lower-case the characters one by one. -/
def jsToLowerCase (s : String) : String :=
  String.mk (s.data.map Char.toLower)

/-- Operation `filterContent` (src/db.ts:1092-1110) up to the point where the sorted
`FuseResult` list is handed to `displayContent`: lowercase the raw input
value, run the fuzzy search when the query is non-empty (else wrap the
whole catalog with its indices), apply the genre membership filter, then
sort with `"search"` forced as the sort key when the evaluation came from
live text input.  The fuzzy index (`fuse.search`) is the external Fuse.js
collaborator, abstracted as the function `search`. -/
def filterContentResults (search : String → List FuseResult)
    (content : List Movie) (inputValue selectedGenre sortOption : String)
    (isSearch : Bool) : List FuseResult :=
  let searchQuery := jsToLowerCase inputValue
  let results :=
    if searchQuery = "" then
      content.enum.map (fun p => ⟨p.2, p.1, none⟩)
    else search searchQuery
  let results :=
    if selectedGenre = "" then results
    else results.filter (fun r => r.item.genre.contains selectedGenre)
  let sortOptionValue := if isSearch then "search" else sortOption
  sortResults results sortOptionValue

/-- The item list `filterContent` passes to the renderer: the sorted
results with their scores discarded. -/
def filterContent (search : String → List FuseResult)
    (content : List Movie) (inputValue selectedGenre sortOption : String)
    (isSearch : Bool) : List Movie :=
  (filterContentResults search content inputValue selectedGenre sortOption
    isSearch).map (fun r => r.item)

/-- Operation `fetchContent` (src/db.ts:972-989), movies half: the catalog read from
the store, sorted with `(a, b) => a.title.localeCompare(b.title)`. -/
def fetchContentMovies (catalog : List Movie) : List Movie :=
  jsSortBy (fun a b => decide (localeCompare a.title b.title ≤ 0)) catalog

-- Reductions of the comparator at the literal sort keys.

theorem sortComparatorLe_search (a b : FuseResult) :
    sortComparatorLe "search" a b =
      match a.score, b.score with
      | some x, some y => decide (x ≤ y)
      | _, _ => true := rfl

theorem sortComparatorLe_title (a b : FuseResult) :
    sortComparatorLe "title" a b =
      decide (localeCompare a.item.title b.item.title ≤ 0) := rfl

theorem sortComparatorLe_year (a b : FuseResult) :
    sortComparatorLe "year" a b = decide (b.item.year ≤ a.item.year) := rfl

theorem sortComparatorLe_rating (a b : FuseResult) :
    sortComparatorLe "rating" a b = decide (b.item.rating ≤ a.item.rating) := rfl

theorem sortComparatorLe_other (s : String) (hs : s ≠ "search")
    (ht : s ≠ "title") (hy : s ≠ "year") (hr : s ≠ "rating")
    (a b : FuseResult) : sortComparatorLe s a b = true := by
  unfold sortComparatorLe
  rw [if_neg hs, if_neg ht, if_neg hy, if_neg hr]

theorem sortComparatorLe_search_some (a b : FuseResult) (x y : ℚ)
    (ha : a.score = some x) (hb : b.score = some y) :
    sortComparatorLe "search" a b = decide (x ≤ y) := by
  rw [sortComparatorLe_search, ha, hb]

theorem pairwise_of_forall_mem {R : α → α → Prop} (l : List α)
    (h : ∀ a ∈ l, ∀ b ∈ l, R a b) : l.Pairwise R := by
  induction l with
  | nil => exact List.Pairwise.nil
  | cons x xs ih =>
    refine List.Pairwise.cons ?_ ?_
    · exact fun b hb => h x (List.mem_cons_self _ _) b (List.mem_cons_of_mem _ hb)
    · exact ih fun a ha b hb =>
        h a (List.mem_cons_of_mem _ ha) b (List.mem_cons_of_mem _ hb)

/-- C4: the sort total ordering of `sortResults`: descending years under
`"year"`, descending ratings under `"rating"`, locale-lexicographically
non-decreasing titles under `"title"`, and the input order unchanged under
`"none"` or any unrecognized sort key. -/
theorem sortResults_total_ordering (results : List FuseResult) :
    ((sortResults results "year").Chain' fun a b => b.item.year ≤ a.item.year) ∧
    ((sortResults results "rating").Chain' fun a b => b.item.rating ≤ a.item.rating) ∧
    ((sortResults results "title").Chain' fun a b =>
        localeCompare a.item.title b.item.title ≤ 0) ∧
    sortResults results "none" = results ∧
    (∀ s, s ≠ "search" → s ≠ "title" → s ≠ "year" → s ≠ "rating" →
      sortResults results s = results) := by
  refine ⟨?_, ?_, ?_, ?_, ?_⟩
  · have hp := pairwise_jsSortBy (sortComparatorLe "year") results
      (fun a _ b _ => by
        simp only [sortComparatorLe_year, decide_eq_true_eq]
        exact le_total b.item.year a.item.year)
      (fun a _ b _ c _ hab hbc => by
        simp only [sortComparatorLe_year, decide_eq_true_eq] at hab hbc ⊢
        exact le_trans hbc hab)
    exact (hp.imp fun h => by
      simpa only [sortComparatorLe_year, decide_eq_true_eq] using h).chain'
  · have hp := pairwise_jsSortBy (sortComparatorLe "rating") results
      (fun a _ b _ => by
        simp only [sortComparatorLe_rating, decide_eq_true_eq]
        exact le_total b.item.rating a.item.rating)
      (fun a _ b _ c _ hab hbc => by
        simp only [sortComparatorLe_rating, decide_eq_true_eq] at hab hbc ⊢
        exact le_trans hbc hab)
    exact (hp.imp fun h => by
      simpa only [sortComparatorLe_rating, decide_eq_true_eq] using h).chain'
  · have hp := pairwise_jsSortBy (sortComparatorLe "title") results
      (fun a _ b _ => by
        simp only [sortComparatorLe_title, decide_eq_true_eq,
          localeCompare_nonpos_iff]
        exact le_total a.item.title b.item.title)
      (fun a _ b _ c _ hab hbc => by
        simp only [sortComparatorLe_title, decide_eq_true_eq,
          localeCompare_nonpos_iff] at hab hbc ⊢
        exact le_trans hab hbc)
    exact (hp.imp fun h => by
      simpa only [sortComparatorLe_title, decide_eq_true_eq] using h).chain'
  · exact jsSortBy_of_all_true _
      (fun a b => sortComparatorLe_other "none" (by decide) (by decide)
        (by decide) (by decide) a b) results
  · intro s hs ht hy hr
    exact jsSortBy_of_all_true _
      (fun a b => sortComparatorLe_other s hs ht hy hr a b) results

/-- Sample catalog item used by the concrete witnesses. -/
def duneMovie : Movie :=
  { id := "tt1160419", title := "Dune", year := 2021,
    description := "A noble family becomes embroiled in a war for a desert planet.",
    image := some "/images/movies/Dune (2021).jpg", runtime := 155,
    premiered := "2021-10-22", genre := ["Science Fiction", "Adventure"],
    tag := none, rating := 8, actors := ["Timothee Chalamet"] }

/-- Second sample catalog item used by the concrete witnesses. -/
def arrivalMovie : Movie :=
  { id := "tt2543164", title := "Arrival", year := 2016,
    description := "A linguist works with the military to communicate with visitors.",
    image := some "/images/movies/Arrival (2016).jpg", runtime := 116,
    premiered := "2016-11-11", genre := ["Science Fiction", "Drama"],
    tag := none, rating := 79/10, actors := ["Amy Adams"] }

/-- Closed witness for `sortResults_total_ordering`: the unrecognized-key
conjunct instantiated at a concrete result list and the key
`"alphabetical"`. -/
theorem sortResults_total_ordering_witness :
    sortResults [⟨duneMovie, 0, none⟩, ⟨arrivalMovie, 1, none⟩] "alphabetical" =
      [⟨duneMovie, 0, none⟩, ⟨arrivalMovie, 1, none⟩] :=
  (sortResults_total_ordering [⟨duneMovie, 0, none⟩, ⟨arrivalMovie, 1, none⟩]).2.2.2.2
    "alphabetical" (by decide) (by decide) (by decide) (by decide)

/-- Sorting search results whose scores are all present yields ascending
scores (the `"search"` comparator is a total preorder there). -/
theorem chain_scores_of_all_some (L : List FuseResult)
    (hL : ∀ r ∈ L, r.score.isSome = true) :
    (sortResults L "search").Chain'
      (fun a b => ∀ x y : ℚ, a.score = some x → b.score = some y → x ≤ y) := by
  have hp := pairwise_jsSortBy (sortComparatorLe "search") L
    (fun a ha b hb => by
      obtain ⟨x, hx⟩ := Option.isSome_iff_exists.mp (hL a ha)
      obtain ⟨y, hy⟩ := Option.isSome_iff_exists.mp (hL b hb)
      rw [sortComparatorLe_search_some a b x y hx hy,
        sortComparatorLe_search_some b a y x hy hx]
      simp only [decide_eq_true_eq]
      exact le_total x y)
    (fun a ha b hb c hc hab hbc => by
      obtain ⟨x, hx⟩ := Option.isSome_iff_exists.mp (hL a ha)
      obtain ⟨y, hy⟩ := Option.isSome_iff_exists.mp (hL b hb)
      obtain ⟨z, hz⟩ := Option.isSome_iff_exists.mp (hL c hc)
      rw [sortComparatorLe_search_some a b x y hx hy] at hab
      rw [sortComparatorLe_search_some b c y z hy hz] at hbc
      rw [sortComparatorLe_search_some a c x z hx hz]
      simp only [decide_eq_true_eq] at hab hbc ⊢
      exact le_trans hab hbc)
  refine (List.Pairwise.imp ?_ hp).chain'
  intro a b h x y hx hy
  rw [sortComparatorLe_search_some a b x y hx hy] at h
  exact of_decide_eq_true h

/-- On the non-search branch no result carries a score, so the
ascending-score property holds vacuously of any reordering. -/
theorem chain_scores_of_all_none (L : List FuseResult)
    (hL : ∀ r ∈ L, r.score = none) :
    (sortResults L "search").Chain'
      (fun a b => ∀ x y : ℚ, a.score = some x → b.score = some y → x ≤ y) := by
  refine (pairwise_of_forall_mem _ ?_).chain'
  intro a ha b hb x y hx hy
  have hnone := hL a ((mem_jsSortBy (sortComparatorLe "search") a L).mp ha)
  rw [hnone] at hx
  exact Option.noConfusion hx

/-- C3: whenever the pipeline evaluation is triggered by live text input
(`isSearch = true`), the output order is by ascending fuzzy-match score,
regardless of the query, the genre filter, and the sort control's current
value.  The external fuzzy index is any `search` function whose results
carry a relevance score. -/
theorem filterContent_live_input_relevance_order
    (search : String → List FuseResult)
    (hs : ∀ q : String, ∀ r ∈ search q, r.score.isSome = true)
    (content : List Movie) (inputValue selectedGenre sortOption : String) :
    (filterContentResults search content inputValue selectedGenre sortOption
        true).Chain'
      (fun a b => ∀ x y : ℚ, a.score = some x → b.score = some y → x ≤ y) := by
  simp only [filterContentResults]
  by_cases hq : jsToLowerCase inputValue = ""
  · rw [if_pos hq]
    have hnone : ∀ r ∈ content.enum.map
        (fun p => (⟨p.2, p.1, none⟩ : FuseResult)), r.score = none := by
      intro r hr
      rcases List.mem_map.mp hr with ⟨p, _, rfl⟩
      rfl
    by_cases hg : selectedGenre = ""
    · rw [if_pos hg]
      exact chain_scores_of_all_none _ hnone
    · rw [if_neg hg]
      exact chain_scores_of_all_none _
        (fun r hr => hnone r (List.mem_filter.mp hr).1)
  · rw [if_neg hq]
    have hsome := hs (jsToLowerCase inputValue)
    by_cases hg : selectedGenre = ""
    · rw [if_pos hg]
      exact chain_scores_of_all_some _ hsome
    · rw [if_neg hg]
      exact chain_scores_of_all_some _
        (fun r hr => hsome r (List.mem_filter.mp hr).1)

/-- A concrete stand-in for the fuzzy index in the C3 witness. -/
def sampleSearch : String → List FuseResult :=
  fun _ => [⟨arrivalMovie, 0, some (1/4)⟩, ⟨duneMovie, 1, some (1/2)⟩]

/-- Closed witness for `filterContent_live_input_relevance_order` at a
concrete search function, catalog, query and sort key. -/
theorem filterContent_live_input_relevance_order_witness :
    (filterContentResults sampleSearch [duneMovie, arrivalMovie] "Dun" "" "year"
        true).Chain'
      (fun a b => ∀ x y : ℚ, a.score = some x → b.score = some y → x ≤ y) :=
  filterContent_live_input_relevance_order sampleSearch
    (by
      intro q r hr
      simp only [sampleSearch, List.mem_cons, List.not_mem_nil, or_false] at hr
      rcases hr with rfl | rfl <;> rfl)
    [duneMovie, arrivalMovie] "Dun" "" "year"

/-- Discarding the `FuseResult` wrappers of the non-search branch recovers
the catalog in its original order. -/
theorem map_item_enumWrap (l : List Movie) :
    ((l.enum.map (fun p => (⟨p.2, p.1, none⟩ : FuseResult))).map
      (fun r => r.item)) = l := by
  rw [List.map_map]
  have h2 : ((fun r : FuseResult => r.item) ∘
      (fun p : Nat × Movie => (⟨p.2, p.1, none⟩ : FuseResult))) = Prod.snd := rfl
  rw [h2]
  exact List.enum_map_snd l

/-- C5: evaluating with empty query, empty genre, sort key `"none"` and not
from live input returns exactly the catalog as loaded by `fetchContent` —
the seeded catalog sorted alphabetically by title, with no item dropped or
duplicated (the loaded list is a permutation of the catalog). -/
theorem filterContent_empty_query_passthrough
    (search : String → List FuseResult) (catalog : List Movie) :
    filterContent search (fetchContentMovies catalog) "" "" "none" false =
        fetchContentMovies catalog ∧
    (fetchContentMovies catalog).Perm catalog ∧
    (fetchContentMovies catalog).Chain'
      (fun a b => localeCompare a.title b.title ≤ 0) := by
  refine ⟨?_, ?_, ?_⟩
  · unfold filterContent
    simp only [filterContentResults]
    rw [if_pos trivial, if_neg (by decide : ¬(false = true))]
    have hnone : ∀ L : List FuseResult, sortResults L "none" = L := fun L =>
      jsSortBy_of_all_true _
        (fun a b => sortComparatorLe_other "none" (by decide) (by decide)
          (by decide) (by decide) a b) L
    rw [hnone]
    exact map_item_enumWrap _
  · exact perm_jsSortBy _ _
  · have hp := pairwise_jsSortBy
      (fun a b : Movie => decide (localeCompare a.title b.title ≤ 0)) catalog
      (fun a _ b _ => by
        simp only [decide_eq_true_eq, localeCompare_nonpos_iff]
        exact le_total _ _)
      (fun a _ b _ c _ hab hbc => by
        simp only [decide_eq_true_eq, localeCompare_nonpos_iff] at hab hbc ⊢
        exact le_trans hab hbc)
    exact (List.Pairwise.imp
      (fun h => by simpa only [decide_eq_true_eq] using h) hp).chain'

/-! ## Offline ingestion utility (`src/unnamed/part_000`, `src/gen-tv.ts`)

The two generator scripts are identical up to the catalog (movies vs. TV
shows); the embedding follows the movie generator.  Filesystem and network
effects are explicit: `fetch` is an oracle from URL to either a network
error message or a response, and the state collects the files written and
the lines appended to `failed_downloads.txt`. -/

/-- The JS `\w` character class: ASCII alphanumerics and underscore. -/
def jsIsWordChar (c : Char) : Bool :=
  decide (('a' ≤ c ∧ c ≤ 'z') ∨ ('A' ≤ c ∧ c ≤ 'Z') ∨ ('0' ≤ c ∧ c ≤ '9') ∨ c = '_')

/-- The JS `\s` character class, restricted to the common whitespace
characters (space, tab, line feed, carriage return, form feed, vertical
tab). -/
def jsIsSpaceChar (c : Char) : Bool :=
  decide (c = ' ' ∨ c = '\t' ∨ c = '\n' ∨ c = '\r' ∨
    c = Char.ofNat 12 ∨ c = Char.ofNat 11)

/-- Unicode combining diacritical marks (U+0300 to U+036F), the range
stripped by `sanitizeTitle`. -/
def isCombiningMark (c : Char) : Bool :=
  decide (0x300 ≤ c.toNat ∧ c.toNat ≤ 0x36F)

/-- Models `title.normalize("NFD")` (canonical decomposition).  On strings
without precomposed characters — every concrete input in this development
is plain ASCII — decomposition is the identity; the combining marks it
produces elsewhere are stripped by the following step of `sanitizeTitle`. -/
def normalizeNFD (s : String) : String := s

/-- Operation `sanitizeTitle` of the generator scripts: NFD-normalize and strip
combining marks, replace `/` and `:` with `-`, then drop every character
that is not word, whitespace, hyphen or underscore
(`replace(/[^\w\s-_]/g, "")`). -/
def sanitizeTitle (title : String) : String :=
  let normalizedTitle :=
    String.mk ((normalizeNFD title).data.filter (fun c => !(isCombiningMark c)))
  let replacedTitle :=
    String.mk (normalizedTitle.data.map
      (fun c => if c = '/' ∨ c = ':' then '-' else c))
  let sanitizedTitle :=
    String.mk (replacedTitle.data.filter
      (fun c => jsIsWordChar c || jsIsSpaceChar c || c == '-' || c == '_'))
  sanitizedTitle

/-- The JS `String.prototype.replace` with a plain string pattern: replace the
first occurrence only. -/
def replaceFirst (s pat repl : String) : String :=
  match s.splitOn pat with
  | [] => s
  | head :: rest =>
    if rest.isEmpty then s
    else head ++ repl ++ String.intercalate pat rest

/-- Operation `replaceImageUrl` of the generator scripts: rewrite the poster URL to
the lower-resolution path variant. -/
def replaceImageUrl (url : String) : String :=
  replaceFirst url "/original/" "/w220_and_h330_face/"

/-- Model of `String.prototype.startsWith`. -/
def jsStartsWith (s pre : String) : Bool :=
  decide (s.data.take pre.data.length = pre.data)

/-- A fetched HTTP response: the declared `content-type` header (absent
when the server sent none) and the body bytes. -/
structure FetchResponse where
  contentType : Option String
  body : List Nat
  deriving Repr, DecidableEq

/-- Filesystem effects of the generator: files written
(`fs.writeFileSync`) and lines appended to the `failed_downloads.txt` log
(`fs.appendFileSync`; each entry here is one line, without its trailing
newline). -/
structure IngestState where
  files : List (String × List Nat)
  log : List String
  deriving Repr, DecidableEq

def emptyIngestState : IngestState := { files := [], log := [] }

/-- Operation `logFailedDownload` of the generator scripts: append
the title, the year in parentheses, a dash, the error message, and the
script's stray closing parenthesis. -/
def logFailedDownload (st : IngestState) (title : String) (year : Int)
    (errorMessage : String) : IngestState :=
  { st with log := st.log ++
      [title ++ " (" ++ toString year ++ ") - " ++ errorMessage ++ ")"] }

/-- The fetch-and-validate part of `downloadImage`: the body to write when
the declared content type starts with `image/jpeg`, otherwise the message
of the thrown validation error (JS interpolates a missing header as the
string `null`) or of the network failure. -/
def validateResponse : Except String FetchResponse → Except String (List Nat)
  | Except.error e => Except.error e
  | Except.ok resp =>
    match resp.contentType with
    | none => Except.error ("Content is not an image. Content-Type: " ++ "null")
    | some ct =>
      if jsStartsWith ct "image/jpeg" then Except.ok resp.body
      else Except.error ("Content is not an image. Content-Type: " ++ ct)

/-- Operation `downloadImage` of the generator scripts: fetch the URL, throw unless
the declared content type starts with `image/jpeg`, and write the body to
`outputPath`; any error is caught and recorded via `logFailedDownload`
(the catch block never rethrows). -/
def downloadImage (fetch : String → Except String FetchResponse)
    (st : IngestState) (url outputPath title : String) (year : Int) :
    IngestState :=
  match validateResponse (fetch url) with
  | Except.error e => logFailedDownload st title year e
  | Except.ok buffer => { st with files := st.files ++ [(outputPath, buffer)] }

/-- The fields extracted from one parsed `.nfo` file by
`processNfoFiles`. -/
structure NfoRecord where
  id : String
  title : String
  year : Int
  description : String
  thumbUrl : String
  runtime : Int
  premiered : String
  genre : List String
  tag : Option (List String)
  rating : ℚ
  actors : List String
  deriving Repr, DecidableEq

/-- The deterministic image filename
`` `${safeTitle} (${year}).jpg` `` of `processNfoFiles`. -/
def imageName (r : NfoRecord) : String :=
  sanitizeTitle r.title ++ " (" ++ toString r.year ++ ").jpg"

/-- The filesystem path the image is written to
(`path.join(__dirname, "public", "images", "movies", imageName)`). -/
def imagePath (r : NfoRecord) : String :=
  "public/images/movies/" ++ imageName r

/-- The catalog entry `processNfoFiles` pushes for one record — pushed
unconditionally, with `image` set to the local relative path, whether or
not the download succeeded. -/
def movieEntry (r : NfoRecord) : Movie :=
  { id := r.id, title := r.title, year := r.year,
    description := r.description,
    image := some ("/images/movies/" ++ imageName r), runtime := r.runtime,
    premiered := r.premiered, genre := r.genre, tag := r.tag,
    rating := r.rating, actors := r.actors }

/-- One iteration of the `processNfoFiles` loop: download the (rewritten)
poster URL under the sanitized title, then push the catalog entry. -/
def processNfoStep (fetch : String → Except String FetchResponse)
    (acc : List Movie × IngestState) (r : NfoRecord) :
    List Movie × IngestState :=
  let st := downloadImage fetch acc.2 (replaceImageUrl r.thumbUrl)
    (imagePath r) (sanitizeTitle r.title) r.year
  (acc.1 ++ [movieEntry r], st)

/-- Operation `processNfoFiles` of the generator scripts, over the already-parsed
records: the resulting catalog list (written to `movies.json`) and the
accumulated filesystem effects. -/
def processNfoFiles (fetch : String → Except String FetchResponse)
    (records : List NfoRecord) : List Movie × IngestState :=
  records.foldl (processNfoStep fetch) ([], emptyIngestState)

theorem log_mono_downloadImage (fetch : String → Except String FetchResponse)
    (st : IngestState) (url outputPath title : String) (year : Int) :
    ∀ x ∈ st.log, x ∈ (downloadImage fetch st url outputPath title year).log := by
  intro x hx
  unfold downloadImage
  cases hv : validateResponse (fetch url) with
  | error e => exact List.mem_append_left _ hx
  | ok buffer => exact hx

theorem processNfo_foldl_movies (fetch : String → Except String FetchResponse)
    (records : List NfoRecord) (init : List Movie × IngestState) :
    (records.foldl (processNfoStep fetch) init).1 =
      init.1 ++ records.map movieEntry := by
  induction records generalizing init with
  | nil => simp
  | cons r rs ih =>
    rw [List.foldl_cons, ih, List.map_cons]
    show (processNfoStep fetch init r).1 ++ _ = _
    unfold processNfoStep
    simp

theorem processNfo_foldl_log_mono (fetch : String → Except String FetchResponse)
    (records : List NfoRecord) (init : List Movie × IngestState) :
    ∀ x ∈ init.2.log, x ∈ (records.foldl (processNfoStep fetch) init).2.log := by
  induction records generalizing init with
  | nil => exact fun x hx => hx
  | cons r rs ih =>
    intro x hx
    rw [List.foldl_cons]
    refine ih (processNfoStep fetch init r) x ?_
    exact log_mono_downloadImage fetch init.2 _ _ _ _ x hx

theorem processNfo_foldl_failure_logged
    (fetch : String → Except String FetchResponse) (records : List NfoRecord)
    (init : List Movie × IngestState) (r : NfoRecord) (hr : r ∈ records)
    (e : String)
    (he : validateResponse (fetch (replaceImageUrl r.thumbUrl)) = Except.error e) :
    (sanitizeTitle r.title ++ " (" ++ toString r.year ++ ") - " ++ e ++ ")") ∈
      (records.foldl (processNfoStep fetch) init).2.log := by
  induction records generalizing init with
  | nil => exact absurd hr (List.not_mem_nil r)
  | cons r0 rs ih =>
    rw [List.foldl_cons]
    rcases List.mem_cons.mp hr with rfl | hr'
    · refine processNfo_foldl_log_mono fetch rs _ _ ?_
      show _ ∈ (downloadImage fetch init.2 (replaceImageUrl r.thumbUrl) _ _ _).log
      unfold downloadImage
      rw [he]
      unfold logFailedDownload
      exact List.mem_append_right _ (List.mem_singleton.mpr rfl)
    · exact ih _ hr'

/-- C7 (amended): for every record whose image fetch or content-type
validation fails, the line built from the **sanitized** title
(`"<sanitized title> (<year>) - <error message>)"`) is appended to the
failure log, the record's catalog entry is still emitted (with `image` set
to the local path), and every other record is still processed. -/
theorem processNfoFiles_failure_logging
    (fetch : String → Except String FetchResponse) (records : List NfoRecord) :
    (processNfoFiles fetch records).1 = records.map movieEntry ∧
    ∀ r ∈ records, ∀ e,
      validateResponse (fetch (replaceImageUrl r.thumbUrl)) = Except.error e →
      (sanitizeTitle r.title ++ " (" ++ toString r.year ++ ") - " ++ e ++ ")") ∈
        (processNfoFiles fetch records).2.log := by
  constructor
  · unfold processNfoFiles
    rw [processNfo_foldl_movies]
    rfl
  · intro r hr e he
    exact processNfo_foldl_failure_logged fetch records _ r hr e he

/-- A record whose title contains a forward slash (sanitized to a
hyphen). -/
def slashNfo : NfoRecord :=
  { id := "tt0000001", title := "Am/elie", year := 2001,
    description := "A whimsical tale.",
    thumbUrl := "https://img.example/original/amelie.jpg", runtime := 122,
    premiered := "2001-04-25", genre := ["Comedy"], tag := none,
    rating := 83/10, actors := ["Audrey Tautou"] }

/-- A fetch oracle that always fails with a network error. -/
def failFetch : String → Except String FetchResponse :=
  fun _ => Except.error "fetch failed"

/-- Counterexample to C7 as stated: when the title needs sanitizing, the
logged line is built from the sanitized title, not the raw title — for
`"Am/elie"` the log holds the `"Am-elie"` line and no line with the raw
title. -/
theorem processNfoFiles_raw_title_not_logged :
    (processNfoFiles failFetch [slashNfo]).2.log =
        ["Am-elie (2001) - fetch failed)"] ∧
    "Am/elie (2001) - fetch failed)" ∉ (processNfoFiles failFetch [slashNfo]).2.log := by
  decide

/-- Closed witness for `processNfoFiles_failure_logging`: the failing
record's sanitized-title line is in the log, and its entry is still
emitted. -/
theorem processNfoFiles_failure_logging_witness :
    (sanitizeTitle slashNfo.title ++ " (" ++ toString slashNfo.year ++ ") - " ++
        "fetch failed" ++ ")") ∈ (processNfoFiles failFetch [slashNfo]).2.log :=
  (processNfoFiles_failure_logging failFetch [slashNfo]).2 slashNfo
    (List.mem_singleton.mpr rfl) "fetch failed" rfl

/-- Modelled from the spec: "verify its declared content type is an image
format" — an image-format content type is one starting with `image/`. -/
def isImageFormat (ct : String) : Bool := jsStartsWith ct "image/"

/-- The `image/png` response: a declared image format that is not JPEG. -/
def pngResponse : FetchResponse :=
  { contentType := some "image/png", body := [137, 80, 78, 71] }

/-- A fetch oracle answering every URL with the PNG response. -/
def pngFetch : String → Except String FetchResponse :=
  fun _ => Except.ok pngResponse

/-- Counterexample to C8 as stated: for a response whose declared content
type is `image/png` — an image format — no file is written and the failure
is logged, because the code accepts only content types starting with
`image/jpeg`. -/
theorem downloadImage_png_not_written :
    isImageFormat "image/png" = true ∧
    (downloadImage pngFetch emptyIngestState "u" "p" "Title" 2000).files = [] ∧
    (downloadImage pngFetch emptyIngestState "u" "p" "Title" 2000).log =
      ["Title (2000) - Content is not an image. Content-Type: image/png)"] := by
  decide

/-- Whether the fetch outcome declares a content type starting with
`image/jpeg` (the only case the code's validation accepts). -/
def declaredImageJpeg : Except String FetchResponse → Bool
  | Except.ok resp =>
    match resp.contentType with
    | some ct => jsStartsWith ct "image/jpeg"
    | none => false
  | Except.error _ => false

/-- C8 (amended): the image file is written exactly when the response's
declared content type starts with `image/jpeg`; in every other case
(including a missing header or a failed fetch) no file is written and a
failure line is appended to the log instead. -/
theorem downloadImage_writes_iff_jpeg
    (fetch : String → Except String FetchResponse) (st : IngestState)
    (url outputPath title : String) (year : Int) :
    (∀ resp ct, fetch url = Except.ok resp → resp.contentType = some ct →
      jsStartsWith ct "image/jpeg" = true →
      downloadImage fetch st url outputPath title year =
        { st with files := st.files ++ [(outputPath, resp.body)] }) ∧
    (declaredImageJpeg (fetch url) = false →
      (downloadImage fetch st url outputPath title year).files = st.files ∧
      ∃ msg, (downloadImage fetch st url outputPath title year).log =
        st.log ++ [title ++ " (" ++ toString year ++ ") - " ++ msg ++ ")"]) := by
  constructor
  · intro resp ct hf hct hstart
    unfold downloadImage validateResponse
    rw [hf]
    simp only [hct, hstart, if_true]
  · intro h
    cases hf : fetch url with
    | error e =>
      refine ⟨?_, e, ?_⟩ <;>
        simp [downloadImage, validateResponse, hf, logFailedDownload]
    | ok resp =>
      cases hct : resp.contentType with
      | none =>
        refine ⟨?_, "Content is not an image. Content-Type: null", ?_⟩ <;>
          simp [downloadImage, validateResponse, hf, hct, logFailedDownload]
      | some ct =>
        have hfalse : jsStartsWith ct "image/jpeg" = false := by
          simpa [declaredImageJpeg, hf, hct] using h
        refine ⟨?_, "Content is not an image. Content-Type: " ++ ct, ?_⟩ <;>
          simp [downloadImage, validateResponse, hf, hct, hfalse,
            logFailedDownload]

/-- A well-formed `image/jpeg` response. -/
def jpegResponse : FetchResponse :=
  { contentType := some "image/jpeg", body := [255, 216, 255, 224] }

/-- A fetch oracle answering every URL with the JPEG response. -/
def jpegFetch : String → Except String FetchResponse :=
  fun _ => Except.ok jpegResponse

/-- Closed witness for `downloadImage_writes_iff_jpeg`: the JPEG response
is written to the output path. -/
theorem downloadImage_writes_iff_jpeg_witness :
    downloadImage jpegFetch emptyIngestState "u2" "p2" "Title2" 2001 =
      { emptyIngestState with
        files := emptyIngestState.files ++ [("p2", jpegResponse.body)] } :=
  (downloadImage_writes_iff_jpeg jpegFetch emptyIngestState "u2" "p2" "Title2"
    2001).1 jpegResponse "image/jpeg" rfl rfl (by decide)

/-! ## Startup seeding (`initializeDatabase` and `seedDatabase`) -/

/-- Dexie `bulkPut`: upsert each item in order by its primary key `id` —
replace the existing row with the same `id`, or append. -/
def jsBulkPut (existing items : List Movie) : List Movie :=
  items.foldl
    (fun acc it =>
      if acc.any (fun e => e.id == it.id) then
        acc.map (fun e => if e.id == it.id then it else e)
      else acc ++ [it])
    existing

/-- State of the persisted `MoviesDatabase` collections relevant to
seeding. -/
structure AppDb where
  movies : List Movie
  tvShows : List TvShow
  deriving Repr, DecidableEq

/-- Operation `seedDatabase` of the dual-catalog `db.ts` variant (src/db.ts:129-137):
bulk-put the bundled movie list and the bundled TV-show list. -/
def seedDatabase (movieList tvShowList : List Movie) (db : AppDb) : AppDb :=
  { movies := jsBulkPut db.movies movieList,
    tvShows := jsBulkPut db.tvShows tvShowList }

/-- Operation `initializeDatabase` (src/db.ts:927-929):
`if ((await db.movies.count()) === 0) await seedDatabase()`. -/
def initializeDatabase (movieList tvShowList : List Movie) (db : AppDb) : AppDb :=
  if db.movies.length = 0 then seedDatabase movieList tvShowList db else db

/-- C10: startup seeding is gated solely on the movies collection: when the
movies count is zero both collections are bulk-seeded, and when it is
non-zero nothing at all happens — in particular the tvShows collection
(whose count is never consulted) stays as it is, even when it is empty. -/
theorem initializeDatabase_gated_on_movies
    (movieList tvShowList : List Movie) (db : AppDb) :
    (db.movies.length = 0 →
      initializeDatabase movieList tvShowList db =
        { movies := jsBulkPut db.movies movieList,
          tvShows := jsBulkPut db.tvShows tvShowList }) ∧
    (db.movies.length ≠ 0 →
      initializeDatabase movieList tvShowList db = db) := by
  constructor
  · intro h
    unfold initializeDatabase
    rw [if_pos h]
    rfl
  · intro h
    unfold initializeDatabase
    rw [if_neg h]

/-- Closed witness for `initializeDatabase_gated_on_movies`: a state with a
movie present and the tvShows collection empty does not trigger seeding. -/
theorem initializeDatabase_gated_on_movies_witness :
    initializeDatabase [duneMovie] [arrivalMovie]
        { movies := [duneMovie], tvShows := [] } =
      { movies := [duneMovie], tvShows := [] } :=
  (initializeDatabase_gated_on_movies [duneMovie] [arrivalMovie]
    { movies := [duneMovie], tvShows := [] }).2 (by decide)

/-! ## Genre option list (`populateGenres`) -/

/-- The JS `new Set(...)` over a list of strings: keep the first occurrence of
each distinct element, in encounter order. -/
def jsSetDedup : List String → List String
  | [] => []
  | x :: xs => x :: jsSetDedup (xs.filter (fun y => !(y == x)))
termination_by l => l.length
decreasing_by
  simp_wf
  exact Nat.lt_succ_of_le (List.length_filter_le _ _)

theorem mem_jsSetDedup (l : List String) (a : String) :
    a ∈ jsSetDedup l ↔ a ∈ l := by
  induction l using jsSetDedup.induct with
  | case1 => simp [jsSetDedup]
  | case2 x xs ih =>
    rw [jsSetDedup]
    by_cases hax : a = x
    · subst hax
      simp
    · simp only [List.mem_cons, ih, List.mem_filter]
      constructor
      · rintro (rfl | ⟨ha, _⟩)
        · exact Or.inl rfl
        · exact Or.inr ha
      · rintro (rfl | ha)
        · exact Or.inl rfl
        · exact Or.inr ⟨ha, by simpa using hax⟩

theorem nodup_jsSetDedup (l : List String) : (jsSetDedup l).Nodup := by
  induction l using jsSetDedup.induct with
  | case1 => simp [jsSetDedup]
  | case2 x xs ih =>
    rw [jsSetDedup]
    refine List.nodup_cons.mpr ⟨?_, ih⟩
    intro hmem
    rcases List.mem_filter.mp ((mem_jsSetDedup _ _).mp hmem) with ⟨_, hne⟩
    simp at hne

/-- Operation `populateGenres` (src/db.ts:1004-1016): the option values appended to
the genre filter are `[...new Set(content.flatMap((item) => item.genre))]`
sorted by the default (comparator-less) `Array.prototype.sort`, i.e. in
ascending string order. -/
def populateGenres (content : List Movie) : List String :=
  jsSortBy (fun a b => decide (a ≤ b))
    (jsSetDedup (content.flatMap (fun m => m.genre)))

/-- C9: the genre option list contains each genre label occurring in some
item's genre list, exactly once (no duplicates), in ascending sorted
order. -/
theorem populateGenres_distinct_sorted (content : List Movie) :
    (∀ g, g ∈ populateGenres content ↔ ∃ m ∈ content, g ∈ m.genre) ∧
    (populateGenres content).Nodup ∧
    (populateGenres content).Chain' (fun a b : String => a ≤ b) := by
  refine ⟨?_, ?_, ?_⟩
  · intro g
    unfold populateGenres
    rw [mem_jsSortBy, mem_jsSetDedup, List.mem_flatMap]
  · unfold populateGenres
    exact ((perm_jsSortBy _ _).nodup_iff).mpr (nodup_jsSetDedup _)
  · have hp := pairwise_jsSortBy (fun a b : String => decide (a ≤ b))
      (jsSetDedup (content.flatMap (fun m => m.genre)))
      (fun a _ b _ => by
        simp only [decide_eq_true_eq]
        exact le_total a b)
      (fun a _ b _ c _ hab hbc => by
        simp only [decide_eq_true_eq] at hab hbc ⊢
        exact le_trans hab hbc)
    exact (List.Pairwise.imp
      (fun h => by simpa only [decide_eq_true_eq] using h) hp).chain'
